import Mathlib

/-!
Shallow embedding of the `zapcloudwatch` package (`cloudwatch.go`) and
verification of its specification.

The Go code intercepts zap log entries, enriches them with their structured
fields, pushes them on a process-wide FIFO (`msgCache : EntryQueue`), and
ships them to AWS CloudWatch Logs from a per-event hook callback, carrying a
sequence token between appends.

Modelling conventions:
* `zapcore.Level` becomes the inductive `Level` below (including the
  `dpanic` level, which the package's `AllLevels` list deliberately omits).
* mutable state (the global queue `msgCache`, the hook field
  `nextSequenceToken`, the AWS side) is passed explicitly and the new state
  is returned.
* external collaborators — `encoding/json.Marshal`, the wrapped
  `zapcore.Core`, and the CloudWatch client — are parameters (`marshal`,
  `coreWrite`/`coreEnabled`, `put`, `fail`) or a small state model
  (`AwsState`), following the interface description of the spec; the
  repository's own code is translated directly.
-/

namespace Zapcloudwatch

/-- Model of `zapcore.Level`.  The constructor order mirrors zap's numeric
order (`Debug < Info < Warn < Error < DPanic < Panic < Fatal`). -/
inductive Level where
  | debug
  | info
  | warn
  | error
  | dpanic
  | panic
  | fatal
deriving DecidableEq, Repr

/-- Model of `zapcore.Entry` (the components the package reads:
`Level`, `Time`, `LoggerName`, `Message`). -/
structure Entry where
  level : Level
  time : Int
  loggerName : String
  message : String
deriving DecidableEq, Repr

/-- Opaque model of a Go `interface{}` value stored in a field's
`Interface` slot (`none` models a nil interface). -/
abbrev Iface := Option Nat

/-- Errors (Go `error` values) are modelled as strings. -/
abbrev Err := String

/-- Model of `zapcore.FieldType`: the type tags the `switch` in
`PikaCore.Write` distinguishes, plus a generic tag for every other
`zapcore` field type (the `default` case of the switch). -/
inductive FieldType where
  | StringType
  | Int64Type
  | Int32Type
  | Uint32Type
  | Uint64Type
  | BoolType
  | other (tag : Nat)
deriving DecidableEq, Repr

/-- Model of `zapcore.Field`: `Key`, `Type`, `String`, `Integer` (an
`int64`, modelled as `Int`), `Interface`. -/
structure Field where
  key : String
  typ : FieldType
  str : String
  integer : Int
  iface : Iface
deriving DecidableEq, Repr

/-- A value stored in the `map[string]interface{}` built by
`PikaCore.Write`. -/
inductive JsonValue where
  | str (s : String)
  | int (i : Int)
  | bool (b : Bool)
  | iface (v : Iface)
deriving DecidableEq, Repr

/-! ## EntryQueue

`EntryQueue` wraps a `container/list` list; `Push` appends at the back,
`Pop` removes the front element (returning `nil` when empty).  The list is
modelled with its front at the head. -/

/-- The state of an `EntryQueue` (`eq.entries`), front at the head. -/
abbrev EntryQueue := List Entry

/-- `(eq *EntryQueue).Push`: `eq.entries.PushBack(entry)`. -/
def EntryQueue.Push (q : EntryQueue) (entry : Entry) : EntryQueue :=
  q ++ [entry]

/-- `(eq *EntryQueue).Pop`: returns `nil` (here `none`) when empty,
otherwise removes and returns the front element. -/
def EntryQueue.Pop (q : EntryQueue) : Option Entry × EntryQueue :=
  match q with
  | [] => (none, [])
  | e :: rest => (some e, rest)

/-- Pushing a whole list of entries in order (iterated `Push`). -/
def EntryQueue.pushAll (q : EntryQueue) (ps : List Entry) : EntryQueue :=
  ps.foldl (fun q e => q.Push e) q

/-- Performing `n` pops in a row, collecting each pop's result. -/
def EntryQueue.popN : Nat → EntryQueue → List (Option Entry) × EntryQueue
  | 0, q => ([], q)
  | n + 1, q =>
    let r := q.Pop
    let rest := EntryQueue.popN n r.2
    (r.1 :: rest.1, rest.2)

/-! ## Levels and the threshold filter -/

/-- `AllLevels`: the package's fixed list of supported levels.  Note the
source lists `Fatal` before `Panic` and omits `DPanic`. -/
def AllLevels : List Level :=
  [Level.debug, Level.info, Level.warn, Level.error, Level.fatal, Level.panic]

/-- `LevelThreshold`: scans `AllLevels` for the first index holding `l` and
returns the suffix `AllLevels[i:]`; returns the empty (non-nil) slice when
`l` is not in `AllLevels`. -/
def LevelThreshold (l : Level) : List Level :=
  match AllLevels.findIdx? (fun x => decide (x = l)) with
  | some i => AllLevels.drop i
  | none => []

/-- Model of the `CloudwatchHook` struct's configuration fields.
`AcceptedLevels = none` models a nil slice.  The mutable fields
(`nextSequenceToken`, `svc`, the mutex `m`) are modelled as explicit state
of the operations below. -/
structure CloudwatchHook where
  AcceptedLevels : Option (List Level)
  GroupName : String
  StreamName : String
  Async : Bool
deriving DecidableEq, Repr

/-- `NewCloudwatchHook` (the opaque `*aws.Config` argument is dropped). -/
def NewCloudwatchHook (groupName streamName : String) (isAsync : Bool)
    (level : Level) : CloudwatchHook :=
  { AcceptedLevels := some (LevelThreshold level)
    GroupName := groupName
    StreamName := streamName
    Async := isAsync }

/-- `(ch *CloudwatchHook).Levels`: `AllLevels` when `AcceptedLevels` is
nil, otherwise `AcceptedLevels`. -/
def CloudwatchHook.Levels (ch : CloudwatchHook) : List Level :=
  match ch.AcceptedLevels with
  | none => AllLevels
  | some ls => ls

/-- `(ch *CloudwatchHook).isAcceptedLevel`: linear scan of `ch.Levels()`
for an equal level. -/
def CloudwatchHook.isAcceptedLevel (ch : CloudwatchHook) (level : Level) : Bool :=
  ch.Levels.any (fun lv => decide (lv = level))

/-! ## PikaCore: the enriching core -/

/-- Model of the `PikaCore` struct.  It embeds a `zapcore.Core`; the two
capabilities of the embedded core that the code uses are modelled as
functions: `coreEnabled` (the promoted `Enabled`) and `coreWrite` (the
wrapped `Write`, returning its error result). -/
structure PikaCore where
  coreEnabled : Level → Bool
  coreWrite : Entry → List Field → Option Err

/-- The per-field conversion performed by the `switch` inside
`PikaCore.Write` on `field.Type`. -/
def convertField (f : Field) : JsonValue :=
  match f.typ with
  | FieldType.StringType => JsonValue.str f.str
  | FieldType.Int64Type => JsonValue.int f.integer
  | FieldType.Int32Type => JsonValue.int f.integer
  | FieldType.Uint32Type => JsonValue.int f.integer
  | FieldType.Uint64Type => JsonValue.int f.integer
  | FieldType.BoolType => JsonValue.bool (decide (f.integer = 1))
  | FieldType.other _ => JsonValue.iface f.iface

/-- A Go `map[string]interface{}` modelled as an association list with
unique keys. -/
abbrev FieldsMap := List (String × JsonValue)

/-- Go map assignment `m[k] = v`: overwrite the binding of `k` when one
exists, otherwise add a new binding. -/
def mapInsert : FieldsMap → String → JsonValue → FieldsMap
  | [], k, v => [(k, v)]
  | p :: m, k, v => if p.1 = k then (k, v) :: m else p :: mapInsert m k v

/-- Go map lookup `m[k]`. -/
def mapLookup : FieldsMap → String → Option JsonValue
  | [], _ => none
  | p :: m, k => if p.1 = k then some p.2 else mapLookup m k

/-- The `fieldsMap` loop of `PikaCore.Write`: fold the fields, assigning
`fieldsMap[field.Key] = convertField field` in order. -/
def buildFieldsMap (fields : List Field) : FieldsMap :=
  fields.foldl (fun m f => mapInsert m f.key (convertField f)) []

/-- The observable outcome of one `PikaCore.Write` call: the returned
error, the (locally mutated) entry value, the global queue `msgCache`
after the call, and the calls forwarded to the wrapped core's `Write`. -/
structure PikaOut where
  err : Option Err
  entry : Entry
  queue : EntryQueue
  forwarded : List (Entry × List Field)
deriving DecidableEq, Repr

/-- `(c *PikaCore).Write`, with `encoding/json.Marshal` as the parameter
`marshal` and the global `msgCache` passed in as `queue`.  On marshal
success the message becomes `fmt.Sprintf("%s %s", entry.Message, json)`,
the mutated entry is pushed on the queue, and the call is forwarded to the
embedded core; on marshal failure the error is returned at once. -/
def PikaCore.Write (c : PikaCore) (marshal : FieldsMap → Except Err String)
    (entry : Entry) (fields : List Field) (queue : EntryQueue) : PikaOut :=
  match marshal (buildFieldsMap fields) with
  | Except.error e => { err := some e, entry := entry, queue := queue, forwarded := [] }
  | Except.ok s =>
    let entry' := { entry with message := entry.message ++ " " ++ s }
    { err := c.coreWrite entry' fields
      entry := entry'
      queue := queue.Push entry'
      forwarded := [(entry', fields)] }

/-- `(c *PikaCore).Check`: when the (promoted) `Enabled` accepts the
entry's level, add this core to the checked entry
(`checked.AddCore(entry, c)`); otherwise return the checked entry
unchanged.  Cores registered on a checked entry are modelled by opaque
ids. -/
def PikaCore.Check (c : PikaCore) (selfId : Nat) (e : Entry)
    (checked : List Nat) : List Nat :=
  if c.coreEnabled e.level then checked ++ [selfId] else checked

/-- One log event as driven by the zap framework (per the spec's pipeline
description): `Check` runs on a fresh checked entry, and this core's
`Write` runs exactly when `Check` registered the core on it. -/
def pikaLog (c : PikaCore) (marshal : FieldsMap → Except Err String)
    (e : Entry) (fields : List Field) (queue : EntryQueue) : PikaOut :=
  if (c.Check 0 e []).contains 0 then c.Write marshal e fields queue
  else { err := none, entry := e, queue := queue, forwarded := [] }

/-! ## The dispatch hook -/

/-- Model of `cloudwatchlogs.InputLogEvent` (message and timestamp in
milliseconds). -/
structure InputLogEvent where
  message : String
  timestamp : Int
deriving DecidableEq, Repr

/-- Model of `cloudwatchlogs.PutLogEventsInput`. -/
structure PutLogEventsInput where
  logEvents : List InputLogEvent
  logGroupName : String
  logStreamName : String
  sequenceToken : Option String
deriving DecidableEq, Repr

/-- The response of a `PutLogEvents` call: an error, or the (possibly nil)
`NextSequenceToken` of the response. -/
abbrev SendResp := Except Err (Option String)

/-- `(ch *CloudwatchHook).sendEvent` with the CloudWatch client call
`PutLogEvents` as parameter `put` and the hook's `nextSequenceToken` as
explicit state: on failure return the error and leave the token unchanged;
on success overwrite the token with the response's `NextSequenceToken`.
(The hook's mutex serializes these calls; the model presents them already
serialized.) -/
def CloudwatchHook.sendEvent (put : PutLogEventsInput → SendResp)
    (tok : Option String) (params : PutLogEventsInput) :
    Option Err × Option String :=
  match put params with
  | Except.error e => (some e, tok)
  | Except.ok t => (none, t)

/-- The append request built by the `cloudwatchWriter` closure: one event
whose message is `fmt.Sprintf("[%s] %s", e.LoggerName, e.Message)` and
whose timestamp is
`int64(time.Nanosecond) * time.Now().UnixNano() / int64(time.Millisecond)`
(truncating division; `time.Nanosecond = 1`, `time.Millisecond = 1000000`),
targeted at the configured group and stream and carrying the currently
recorded sequence token. -/
def buildParams (ch : CloudwatchHook) (tok : Option String) (nowNanos : Int)
    (e : Entry) : PutLogEventsInput :=
  { logEvents := [{ message := "[" ++ e.loggerName ++ "] " ++ e.message
                    timestamp := ((1 : Int) * nowNanos).tdiv 1000000 }]
    logGroupName := ch.GroupName
    logStreamName := ch.StreamName
    sequenceToken := tok }

/-- The observable outcome of one invocation of the hook callback: the
returned error, the recorded token afterwards, the global queue
afterwards, the request built (if any), and the request handed to a
detached (async) send (if any). -/
structure WriterOut where
  err : Option Err
  tok : Option String
  queue : EntryQueue
  request : Option PutLogEventsInput
  spawned : Option PutLogEventsInput
deriving DecidableEq, Repr

/-- The `cloudwatchWriter` closure returned by `GetHook`.  A rejected
level returns `nil` at once.  Otherwise one entry is popped from
`msgCache` and substituted for the raw entry when present, the request is
built, and it is either handed to a detached `go ch.sendEvent(params)`
(async mode, returning `nil`; the detached send is recorded in `spawned`,
its later token update being outside this sequential model) or sent inline
with `sendEvent`'s result returned. -/
def cloudwatchWriter (put : PutLogEventsInput → SendResp)
    (ch : CloudwatchHook) (tok : Option String) (queue : EntryQueue)
    (nowNanos : Int) (e : Entry) : WriterOut :=
  if ch.isAcceptedLevel e.level then
    let popped := queue.Pop.1
    let queue' := queue.Pop.2
    let e' := match popped with
      | some modifiedEntry => modifiedEntry
      | none => e
    let params := buildParams ch tok nowNanos e'
    if ch.Async then
      { err := none, tok := tok, queue := queue', request := some params
        spawned := some params }
    else
      let se := CloudwatchHook.sendEvent put tok params
      { err := se.1, tok := se.2, queue := queue', request := some params
        spawned := none }
  else
    { err := none, tok := tok, queue := queue, request := none, spawned := none }

/-- Iterating the synchronous hook callback on the same entry, one
`PutLogEvents` response per invocation, collecting the requests built. -/
def runWriter (ch : CloudwatchHook) (e : Entry) (nowNanos : Int) :
    List SendResp → Option String → EntryQueue →
    List PutLogEventsInput × Option String × EntryQueue
  | [], tok, q => ([], tok, q)
  | r :: rs, tok, q =>
    let out := cloudwatchWriter (fun _ => r) ch tok q nowNanos e
    let rest := runWriter ch e nowNanos rs out.tok out.queue
    (out.request.toList ++ rest.1, rest.2)

/-! ## GetHook initialization -/

/-- The API calls `GetHook` can issue against the CloudWatch service. -/
inductive ApiCall where
  | descGroups (name : String) (limit : Nat)
  | createGroup (name : String)
  | descStreams (group : String) (name : String)
  | createStream (group : String) (name : String)
deriving DecidableEq, Repr

/-- A log stream as known to the service: its group, its name and its
current `UploadSequenceToken`. -/
structure LogStreamDesc where
  group : String
  name : String
  uploadSequenceToken : Option String
deriving DecidableEq, Repr

/-- State of the remote CloudWatch Logs service (external collaborator,
modelled after the spec's interface description). -/
structure AwsState where
  groups : List String
  streams : List LogStreamDesc
deriving DecidableEq, Repr

/-- Prefix test on strings (the service's name-prefix matching), computed
on the character lists so that concrete instances evaluate. -/
def strPrefixes (p s : String) : Bool := p.data.isPrefixOf s.data

/-- `DescribeLogGroups` with a group-name prefix and a limit. -/
def AwsState.describeLogGroups (st : AwsState) (pre : String)
    (limit : Nat) : List String :=
  (st.groups.filter (fun g => strPrefixes pre g)).take limit

/-- `DescribeLogStreams` within a group with a stream-name prefix; each
result carries its `UploadSequenceToken`. -/
def AwsState.describeLogStreams (st : AwsState) (group pre : String) :
    List LogStreamDesc :=
  st.streams.filter (fun s => decide (s.group = group) && strPrefixes pre s.name)

/-- `CreateLogGroup`. -/
def AwsState.createLogGroup (st : AwsState) (name : String) : AwsState :=
  { st with groups := st.groups ++ [name] }

/-- `CreateLogStream`; a fresh stream has no upload sequence token. -/
def AwsState.createLogStream (st : AwsState) (group name : String) : AwsState :=
  { st with streams := st.streams ++ [⟨group, name, none⟩] }

/-- The result of `GetHook`: `ok tok` models a returned `cloudwatchWriter`
callback together with the recorded `nextSequenceToken`; `err e` models
`(nil, err)` — no callback. -/
inductive InitResult where
  | ok (token : Option String)
  | err (e : Err)
deriving DecidableEq, Repr

/-- Everything observable about one `GetHook` run: its result, the
service state afterwards, and the trace of API calls issued, in order. -/
structure GetHookOut where
  result : InitResult
  state : AwsState
  calls : List ApiCall
deriving DecidableEq, Repr

/-- The stream half of `GetHook` (from `DescribeLogStreams` on): when the
lookup returns a stream, record the first stream's `UploadSequenceToken`
and finish; otherwise create the stream, the recorded token staying as it
was (`tok0`, nil on a fresh hook).  `fail` injects the error result of
each service call (`none` means the call succeeds). -/
def getHookStreams (fail : ApiCall → Option Err) (ch : CloudwatchHook)
    (tok0 : Option String) (st : AwsState) (calls : List ApiCall) :
    GetHookOut :=
  match fail (ApiCall.descStreams ch.GroupName ch.StreamName) with
  | some e =>
    ⟨InitResult.err e, st,
      calls ++ [ApiCall.descStreams ch.GroupName ch.StreamName]⟩
  | none =>
    match st.describeLogStreams ch.GroupName ch.StreamName with
    | s :: _ =>
      ⟨InitResult.ok s.uploadSequenceToken, st,
        calls ++ [ApiCall.descStreams ch.GroupName ch.StreamName]⟩
    | [] =>
      match fail (ApiCall.createStream ch.GroupName ch.StreamName) with
      | some e =>
        ⟨InitResult.err e, st,
          calls ++ [ApiCall.descStreams ch.GroupName ch.StreamName,
            ApiCall.createStream ch.GroupName ch.StreamName]⟩
      | none =>
        ⟨InitResult.ok tok0,
          st.createLogStream ch.GroupName ch.StreamName,
          calls ++ [ApiCall.descStreams ch.GroupName ch.StreamName,
            ApiCall.createStream ch.GroupName ch.StreamName]⟩

/-- `(ch *CloudwatchHook).GetHook`: look up the group by name prefix with
limit 1, create the group when the lookup returns none, then continue
with the stream half.  Each service call is issued at most once; the
first failure aborts with that error and no callback. -/
def CloudwatchHook.GetHook (fail : ApiCall → Option Err)
    (ch : CloudwatchHook) (tok0 : Option String) (st : AwsState) :
    GetHookOut :=
  match fail (ApiCall.descGroups ch.GroupName 1) with
  | some e => ⟨InitResult.err e, st, [ApiCall.descGroups ch.GroupName 1]⟩
  | none =>
    if (st.describeLogGroups ch.GroupName 1).length < 1 then
      match fail (ApiCall.createGroup ch.GroupName) with
      | some e =>
        ⟨InitResult.err e, st,
          [ApiCall.descGroups ch.GroupName 1,
            ApiCall.createGroup ch.GroupName]⟩
      | none =>
        getHookStreams fail ch tok0 (st.createLogGroup ch.GroupName)
          [ApiCall.descGroups ch.GroupName 1,
            ApiCall.createGroup ch.GroupName]
    else
      getHookStreams fail ch tok0 st [ApiCall.descGroups ch.GroupName 1]

/-! ## Concrete fixtures used by witnesses and counterexamples -/

/-- A marshaller that always succeeds with the string `"FS"`. -/
def marshalOkW : FieldsMap → Except Err String := fun _ => Except.ok "FS"

/-- A marshaller that always fails with `"boom"`. -/
def marshalFailW : FieldsMap → Except Err String := fun _ => Except.error "boom"

/-- A wrapped core that accepts every level and whose write succeeds. -/
def coreIdW : PikaCore := ⟨fun _ => true, fun _ _ => none⟩

/-- A wrapped core whose filter accepts only `info`. -/
def coreInfoOnlyW : PikaCore := ⟨fun l => decide (l = Level.info), fun _ _ => none⟩

/-- A concrete info-level entry. -/
def entryW : Entry := ⟨Level.info, 0, "svc", "start"⟩

/-- A concrete debug-level entry. -/
def entryDebugW : Entry := ⟨Level.debug, 0, "svc", "dbg"⟩

/-- A concrete int64 field `count = 3`. -/
def fieldW : Field := ⟨"count", FieldType.Int64Type, "", 3, none⟩

/-- A synchronous hook accepting all levels (nil `AcceptedLevels`). -/
def chW : CloudwatchHook := ⟨none, "g", "s", false⟩

/-- A synchronous hook accepting only `info`. -/
def chInfoW : CloudwatchHook := ⟨some [Level.info], "g", "s", false⟩

/-- A `PutLogEvents` stub that always succeeds with a nil next token. -/
def putOkW : PutLogEventsInput → SendResp := fun _ => Except.ok none

/-- Failure injection under which every service call succeeds. -/
def failNoneW : ApiCall → Option Err := fun _ => none

/-- A service state already holding group `"g"` and a stream `"s"` whose
current upload sequence token is `"tok7"`. -/
def stPreW : AwsState := ⟨["g"], [⟨"g", "s", some "tok7"⟩]⟩

/-! # Theorems -/

/-! ## EntryQueue FIFO (C3) and level filtering (C6) -/

theorem EntryQueue.pushAll_eq (q : EntryQueue) (ps : List Entry) :
    EntryQueue.pushAll q ps = q ++ ps := by
  induction ps generalizing q with
  | nil => simp [EntryQueue.pushAll]
  | cons p ps ih =>
    simp only [EntryQueue.pushAll, List.foldl_cons] at *
    rw [ih (q.Push p)]
    simp [EntryQueue.Push]

theorem EntryQueue.popN_succ (n : Nat) (q : EntryQueue) :
    EntryQueue.popN (n + 1) q =
      (q.Pop.1 :: (EntryQueue.popN n q.Pop.2).1, (EntryQueue.popN n q.Pop.2).2) := rfl

theorem EntryQueue.popN_length_succ (q : EntryQueue) :
    EntryQueue.popN (q.length + 1) q = (q.map some ++ [none], []) := by
  induction q with
  | nil => rfl
  | cons e rest ih =>
    rw [List.length_cons, EntryQueue.popN_succ]
    simp only [EntryQueue.Pop]
    rw [ih]
    simp

/-- C3: pushing `P1..Pn` onto an initially empty `EntryQueue` and then
popping `n + 1` times returns exactly `P1..Pn` in push order (no entry
duplicated or dropped) followed by the empty signal `none`, leaving the
queue empty. -/
theorem entryQueue_fifo (ps : List Entry) :
    EntryQueue.popN (ps.length + 1) (EntryQueue.pushAll [] ps) =
      (ps.map some ++ [none], []) := by
  rw [EntryQueue.pushAll_eq]
  simpa using EntryQueue.popN_length_succ ps

/-- C6: `LevelThreshold` at each of the six supported levels returns
exactly the suffix of the fixed sequence
`[debug, info, warn, error, fatal, panic]` starting at that level, and a
hook whose `AcceptedLevels` is nil accepts all six levels. -/
theorem levelThreshold_and_nil_accepts_all :
    LevelThreshold Level.debug =
      [Level.debug, Level.info, Level.warn, Level.error, Level.fatal, Level.panic] ∧
    LevelThreshold Level.info =
      [Level.info, Level.warn, Level.error, Level.fatal, Level.panic] ∧
    LevelThreshold Level.warn = [Level.warn, Level.error, Level.fatal, Level.panic] ∧
    LevelThreshold Level.error = [Level.error, Level.fatal, Level.panic] ∧
    LevelThreshold Level.fatal = [Level.fatal, Level.panic] ∧
    LevelThreshold Level.panic = [Level.panic] ∧
    (∀ (g s : String) (a : Bool),
      CloudwatchHook.Levels ⟨none, g, s, a⟩ = AllLevels ∧
      AllLevels.all (fun l => CloudwatchHook.isAcceptedLevel ⟨none, g, s, a⟩ l) = true) :=
  ⟨by decide, by decide, by decide, by decide, by decide, by decide,
    fun _ _ _ => ⟨rfl, rfl⟩⟩

/-! ## The fields map and PikaCore.Write (C2, C7, C9) -/

theorem mapLookup_insert (m : FieldsMap) (k : String) (v : JsonValue) (k' : String) :
    mapLookup (mapInsert m k v) k' = if k' = k then some v else mapLookup m k' := by
  induction m with
  | nil =>
    by_cases h : k' = k
    · simp [mapInsert, mapLookup, h]
    · simp [mapInsert, mapLookup, h, show ¬ k = k' from fun hh => h hh.symm]
  | cons p m ih =>
    by_cases hpk : p.1 = k
    · by_cases hk : k' = k
      · simp [mapInsert, mapLookup, hpk, hk]
      · simp [mapInsert, mapLookup, hpk, hk,
          show ¬ k = k' from fun hh => hk hh.symm]
    · by_cases hpk' : p.1 = k'
      · have hk : ¬ k' = k := fun h => hpk (hpk'.trans h)
        simp [mapInsert, mapLookup, hpk, hpk', hk]
      · simp [mapInsert, mapLookup, hpk, hpk', ih]

theorem buildFieldsMap_concat (fields : List Field) (f : Field) :
    buildFieldsMap (fields ++ [f]) =
      mapInsert (buildFieldsMap fields) f.key (convertField f) := by
  simp [buildFieldsMap, List.foldl_append]

theorem buildFieldsMap_lookup (fields : List Field) (k : String) :
    mapLookup (buildFieldsMap fields) k =
      (fields.reverse.find? (fun f => decide (f.key = k))).map convertField := by
  induction fields using List.reverseRecOn with
  | nil => rfl
  | append_singleton fs f ih =>
    rw [buildFieldsMap_concat, mapLookup_insert, List.reverse_append]
    by_cases hk : k = f.key
    · simp [List.find?, hk]
    · have : ¬ f.key = k := fun h => hk h.symm
      simp [List.find?, hk, this, ih]

/-- C2: on a successful `PikaCore.Write` the built map is keyed by field
name with last write winning (the binding of every key is the conversion
of the last field carrying that name), the conversions are: string fields
copy their string value, the four integer-width and unsigned-integer
types copy their value as a signed 64-bit integer, boolean fields test
their integer representation against 1, and every other field type copies
the generic interface value; the entry's message becomes the original
message, one space, and the serialization of the map, the mutated entry is
pushed at the back of the global queue, and the mutated entry with the
unmodified field list is forwarded to the wrapped core. -/
theorem pikaWrite_success (c : PikaCore) (marshal : FieldsMap → Except Err String)
    (entry : Entry) (fields : List Field) (queue : EntryQueue) (s : String)
    (hok : marshal (buildFieldsMap fields) = Except.ok s) :
    (∀ k, mapLookup (buildFieldsMap fields) k =
      (fields.reverse.find? (fun f => decide (f.key = k))).map convertField) ∧
    (∀ f : Field,
      (f.typ = FieldType.StringType → convertField f = JsonValue.str f.str) ∧
      (f.typ = FieldType.Int64Type ∨ f.typ = FieldType.Int32Type ∨
        f.typ = FieldType.Uint32Type ∨ f.typ = FieldType.Uint64Type →
        convertField f = JsonValue.int f.integer) ∧
      (f.typ = FieldType.BoolType →
        convertField f = JsonValue.bool (decide (f.integer = 1))) ∧
      (∀ tag, f.typ = FieldType.other tag → convertField f = JsonValue.iface f.iface)) ∧
    c.Write marshal entry fields queue =
      { err := c.coreWrite { entry with message := entry.message ++ " " ++ s } fields
        entry := { entry with message := entry.message ++ " " ++ s }
        queue := queue ++ [{ entry with message := entry.message ++ " " ++ s }]
        forwarded := [({ entry with message := entry.message ++ " " ++ s }, fields)] } := by
  refine ⟨buildFieldsMap_lookup fields, ?_, ?_⟩
  · intro f
    refine ⟨fun h => ?_, fun h => ?_, fun h => ?_, fun tag h => ?_⟩
    · simp [convertField, h]
    · rcases h with h | h | h | h <;> simp [convertField, h]
    · simp [convertField, h]
    · simp [convertField, h]
  · simp [PikaCore.Write, hok, EntryQueue.Push]

theorem pikaWrite_success_witness :
    PikaCore.Write coreIdW marshalOkW entryW [fieldW] [] =
      { err := none
        entry := { entryW with message := "start FS" }
        queue := [{ entryW with message := "start FS" }]
        forwarded := [({ entryW with message := "start FS" }, [fieldW])] } := by
  have h := pikaWrite_success coreIdW marshalOkW entryW [fieldW] [] "FS" rfl
  rw [h.2.2]
  decide

/-- C7: when the serialization of the fields map fails, `PikaCore.Write`
returns that error, the global queue is unchanged (no partial enqueue),
the entry is left as given, and the wrapped core's write is not
invoked. -/
theorem pikaWrite_marshal_failure (c : PikaCore)
    (marshal : FieldsMap → Except Err String) (entry : Entry)
    (fields : List Field) (queue : EntryQueue) (er : Err)
    (hfail : marshal (buildFieldsMap fields) = Except.error er) :
    c.Write marshal entry fields queue =
      { err := some er, entry := entry, queue := queue, forwarded := [] } := by
  simp [PikaCore.Write, hfail]

theorem pikaWrite_marshal_failure_witness :
    PikaCore.Write coreIdW marshalFailW entryW [fieldW] [] =
      { err := some "boom", entry := entryW, queue := [], forwarded := [] } :=
  pikaWrite_marshal_failure coreIdW marshalFailW entryW [fieldW] [] "boom" rfl

/-- C9 counterexample: for a concrete entry whose level the stage's filter
rejects (`coreInfoOnlyW` accepts only `info`, the entry is at `debug`),
`Check` does not register the stage on the checked entry and nothing at
all is forwarded to the wrapped core — contradicting the claim that the
entry is still forwarded to the wrapped next stage. -/
theorem pikaCheck_no_forward_counterexample :
    coreInfoOnlyW.coreEnabled entryDebugW.level = false ∧
    PikaCore.Check coreInfoOnlyW 0 entryDebugW [] = [] ∧
    (pikaLog coreInfoOnlyW marshalOkW entryDebugW [] []).forwarded = [] := by
  decide

/-- C9 (amended): for every entry whose level the stage's filter does not
accept, `Check` returns the checked entry unchanged (the stage does not
register itself), so the log event produces no side effect of this stage
at all: no error, no entry mutation, no enqueue, and no forward to the
wrapped stage either — rejection suppresses propagation to the wrapped
stage along with this stage's own side effects. -/
theorem pikaCheck_rejected_no_propagation (c : PikaCore) (selfId : Nat)
    (e : Entry) (checked : List Nat) (marshal : FieldsMap → Except Err String)
    (fields : List Field) (queue : EntryQueue)
    (hrej : c.coreEnabled e.level = false) :
    c.Check selfId e checked = checked ∧
    pikaLog c marshal e fields queue =
      { err := none, entry := e, queue := queue, forwarded := [] } := by
  constructor
  · simp [PikaCore.Check, hrej]
  · simp [pikaLog, PikaCore.Check, hrej]

theorem pikaCheck_rejected_no_propagation_witness :
    PikaCore.Check coreInfoOnlyW 1 entryDebugW [5] = [5] ∧
    pikaLog coreInfoOnlyW marshalFailW entryDebugW [fieldW] [entryW] =
      { err := none, entry := entryDebugW, queue := [entryW], forwarded := [] } :=
  pikaCheck_rejected_no_propagation coreInfoOnlyW 1 entryDebugW [5] marshalFailW
    [fieldW] [entryW] rfl

/-! ## The hook callback (C8, C4, C10) and the token protocol (C1) -/

/-- C8: an entry whose level is not accepted makes the hook callback
return success (`nil` error) with no further action: the queue is not
popped, the token is untouched, and no request is built or sent (inline or
detached). -/
theorem writer_rejected_no_action (put : PutLogEventsInput → SendResp)
    (ch : CloudwatchHook) (tok : Option String) (queue : EntryQueue)
    (nowNanos : Int) (e : Entry)
    (hrej : ch.isAcceptedLevel e.level = false) :
    cloudwatchWriter put ch tok queue nowNanos e =
      { err := none, tok := tok, queue := queue, request := none
        spawned := none } := by
  simp [cloudwatchWriter, hrej]

theorem writer_rejected_no_action_witness :
    cloudwatchWriter putOkW chInfoW (some "t0") [entryW] 7 entryDebugW =
      { err := none, tok := some "t0", queue := [entryW], request := none
        spawned := none } :=
  writer_rejected_no_action putOkW chInfoW (some "t0") [entryW] 7 entryDebugW rfl

/-- C4: for an accepted entry the callback pops exactly one entry from the
shared queue — substituting it for the raw entry when one was present and
using the raw entry as given when the queue was empty — and builds an
append request whose message is `"[<logger name>] <entry message>"`, whose
timestamp is the wall-clock nanosecond reading truncated to milliseconds,
whose group and stream are the configured values, and whose sequence
token is the recorded token (so `none` right after initialization of a
fresh stream). -/
theorem writer_accepted_request (put : PutLogEventsInput → SendResp)
    (ch : CloudwatchHook) (tok : Option String) (nowNanos : Int) (e : Entry)
    (hacc : ch.isAcceptedLevel e.level = true) :
    ((cloudwatchWriter put ch tok [] nowNanos e).queue = [] ∧
      (cloudwatchWriter put ch tok [] nowNanos e).request =
        some (buildParams ch tok nowNanos e)) ∧
    (∀ (m : Entry) (rest : EntryQueue),
      (cloudwatchWriter put ch tok (m :: rest) nowNanos e).queue = rest ∧
      (cloudwatchWriter put ch tok (m :: rest) nowNanos e).request =
        some (buildParams ch tok nowNanos m)) ∧
    (∀ e' : Entry, buildParams ch tok nowNanos e' =
      { logEvents := [{ message := "[" ++ e'.loggerName ++ "] " ++ e'.message
                        timestamp := ((1 : Int) * nowNanos).tdiv 1000000 }]
        logGroupName := ch.GroupName
        logStreamName := ch.StreamName
        sequenceToken := tok }) := by
  refine ⟨?_, fun m rest => ?_, fun e' => rfl⟩ <;>
    by_cases ha : ch.Async = true <;>
      simp [cloudwatchWriter, hacc, ha, EntryQueue.Pop]

theorem writer_accepted_request_witness :
    (cloudwatchWriter putOkW chW none [] 7 entryW).request =
      some { logEvents := [{ message := "[svc] start", timestamp := 0 }]
             logGroupName := "g", logStreamName := "s"
             sequenceToken := none } := by
  have h := writer_accepted_request putOkW chW none 7 entryW rfl
  rw [h.1.2]
  decide

/-- C10: a level outside the fixed `AllLevels` list (only `dpanic` in the
model) makes `LevelThreshold` return the empty — non-nil — list, so a hook
built by `NewCloudwatchHook` at such a level has `AcceptedLevels` equal to
`some []` and its callback accepts no entry of any level: it never pops
the queue and never builds or sends an append. -/
theorem unknown_level_hook_inert (l : Level) (hl : l ∉ AllLevels)
    (g s : String) (a : Bool) :
    LevelThreshold l = [] ∧
    (NewCloudwatchHook g s a l).AcceptedLevels = some [] ∧
    (∀ (put : PutLogEventsInput → SendResp) (tok : Option String)
      (queue : EntryQueue) (nowNanos : Int) (e : Entry),
      cloudwatchWriter put (NewCloudwatchHook g s a l) tok queue nowNanos e =
        { err := none, tok := tok, queue := queue, request := none
          spawned := none }) := by
  have hl' : l = Level.dpanic := by
    cases l <;> first | rfl | exact absurd (by decide) hl
  subst hl'
  refine ⟨rfl, rfl, fun put tok queue nowNanos e => ?_⟩
  have hrej : (NewCloudwatchHook g s a Level.dpanic).isAcceptedLevel e.level
      = false := rfl
  simp [cloudwatchWriter, hrej]

theorem unknown_level_hook_inert_witness :
    LevelThreshold Level.dpanic = [] ∧
    (NewCloudwatchHook "g" "s" false Level.dpanic).AcceptedLevels = some [] ∧
    cloudwatchWriter putOkW (NewCloudwatchHook "g" "s" false Level.dpanic)
        none [entryW] 7 entryW =
      { err := none, tok := none, queue := [entryW], request := none
        spawned := none } := by
  have h := unknown_level_hook_inert Level.dpanic (by decide) "g" "s" false
  exact ⟨h.1, h.2.1, h.2.2 putOkW none [entryW] 7 entryW⟩

theorem writer_step (r : SendResp) (ch : CloudwatchHook) (tok : Option String)
    (q : EntryQueue) (nowNanos : Int) (e : Entry)
    (hacc : ch.isAcceptedLevel e.level = true) (hsync : ch.Async = false) :
    cloudwatchWriter (fun _ => r) ch tok q nowNanos e =
      { err := match r with | Except.ok _ => none | Except.error er => some er
        tok := match r with | Except.ok t => t | Except.error _ => tok
        queue := q.Pop.2
        request := some (buildParams ch tok nowNanos
          (match q.Pop.1 with | some m => m | none => e))
        spawned := none } := by
  cases r <;> simp [cloudwatchWriter, hacc, hsync, CloudwatchHook.sendEvent]

theorem runWriter_head (ch : CloudwatchHook) (e : Entry) (nowNanos : Int)
    (rs : List SendResp) (tok : Option String) (q : EntryQueue)
    (hacc : ch.isAcceptedLevel e.level = true) (hsync : ch.Async = false)
    (hne : rs ≠ []) :
    ((runWriter ch e nowNanos rs tok q).1.get? 0).map
      PutLogEventsInput.sequenceToken = some tok := by
  cases rs with
  | nil => exact absurd rfl hne
  | cons r rs' =>
    simp only [runWriter]
    rw [writer_step r ch tok q nowNanos e hacc hsync]
    simp [buildParams]

theorem runWriter_request_after_ok (ch : CloudwatchHook) (e : Entry)
    (nowNanos : Int) (hacc : ch.isAcceptedLevel e.level = true)
    (hsync : ch.Async = false) :
    ∀ (resps : List SendResp) (i : Nat) (t tok : Option String)
      (q : EntryQueue),
      resps.get? i = some (Except.ok t) → i + 1 < resps.length →
      (((runWriter ch e nowNanos resps tok q).1.get? (i + 1)).map
        PutLogEventsInput.sequenceToken) = some t := by
  intro resps
  induction resps with
  | nil => intro i t tok q h hlen; simp at h
  | cons r rs ih =>
    intro i t tok q h hlen
    simp only [runWriter]
    rw [writer_step r ch tok q nowNanos e hacc hsync]
    cases i with
    | zero =>
      have hr : r = Except.ok t := by simpa using h
      subst hr
      have hne : rs ≠ [] := by
        intro hnil
        subst hnil
        simp at hlen
      simpa using runWriter_head ch e nowNanos rs t q.Pop.2 hacc hsync hne
    | succ i' =>
      have h' : rs.get? i' = some (Except.ok t) := by simpa using h
      have hlen' : i' + 1 < rs.length := by simpa using hlen
      simpa using ih i' t _ q.Pop.2 h' hlen'

/-- C1: the sequence-token protocol.  (a) Every append request built by
the callback for an accepted entry carries the token recorded at the time
it is built.  (b) A successful `sendEvent` returns `nil` and overwrites
the recorded token with the response's token.  (c) A failed `sendEvent`
returns the error and leaves the recorded token unchanged.  (d) Iterating
the synchronous callback, when the response to the append at position `i`
is a success carrying token `t`, the next request built carries exactly
`t` — so after `N` consecutive successful appends the `(N+1)`-th request
carries the token returned by the `N`-th response. -/
theorem sequence_token_protocol (ch : CloudwatchHook) (e : Entry)
    (nowNanos : Int) (tok0 : Option String) (q0 : EntryQueue)
    (resps : List SendResp) (i : Nat) (t : Option String)
    (hsync : ch.Async = false) (hacc : ch.isAcceptedLevel e.level = true) :
    (∀ (put : PutLogEventsInput → SendResp) (tok : Option String)
      (q : EntryQueue),
      ((cloudwatchWriter put ch tok q nowNanos e).request).map
        PutLogEventsInput.sequenceToken = some tok) ∧
    (∀ (put : PutLogEventsInput → SendResp) (params : PutLogEventsInput)
      (t' : Option String), put params = Except.ok t' →
      CloudwatchHook.sendEvent put tok0 params = (none, t')) ∧
    (∀ (put : PutLogEventsInput → SendResp) (params : PutLogEventsInput)
      (er : Err), put params = Except.error er →
      CloudwatchHook.sendEvent put tok0 params = (some er, tok0)) ∧
    (resps.get? i = some (Except.ok t) → i + 1 < resps.length →
      (((runWriter ch e nowNanos resps tok0 q0).1.get? (i + 1)).map
        PutLogEventsInput.sequenceToken) = some t) := by
  refine ⟨fun put tok q => ?_, fun put params t' h => ?_,
    fun put params er h => ?_,
    fun h hlen =>
      runWriter_request_after_ok ch e nowNanos hacc hsync resps i t tok0 q0 h hlen⟩
  · simp [cloudwatchWriter, hacc, hsync, buildParams]
  · simp [CloudwatchHook.sendEvent, h]
  · simp [CloudwatchHook.sendEvent, h]

theorem sequence_token_protocol_witness :
    (((runWriter chW entryW 7
        [Except.ok (some "t1"), Except.ok (some "t2")] none []).1.get? 1).map
      PutLogEventsInput.sequenceToken) = some (some "t1") :=
  (sequence_token_protocol chW entryW 7 none []
    [Except.ok (some "t1"), Except.ok (some "t2")] 0 (some "t1") rfl
    rfl).2.2.2 rfl (by decide)

/-! ## GetHook initialization (C5) -/

theorem getHookStreams_state_groups (fail : ApiCall → Option Err)
    (ch : CloudwatchHook) (tok0 : Option String) (st : AwsState)
    (calls : List ApiCall) :
    (getHookStreams fail ch tok0 st calls).state.groups = st.groups := by
  unfold getHookStreams
  cases fail (ApiCall.descStreams ch.GroupName ch.StreamName) with
  | some e => rfl
  | none =>
    cases st.describeLogStreams ch.GroupName ch.StreamName with
    | cons s rest => rfl
    | nil =>
      cases fail (ApiCall.createStream ch.GroupName ch.StreamName) with
      | some e => rfl
      | none => rfl

theorem getHookStreams_calls_shape (fail : ApiCall → Option Err)
    (ch : CloudwatchHook) (tok0 : Option String) (st : AwsState)
    (calls : List ApiCall) :
    (getHookStreams fail ch tok0 st calls).calls =
      calls ++ [ApiCall.descStreams ch.GroupName ch.StreamName] ∨
    (getHookStreams fail ch tok0 st calls).calls =
      calls ++ [ApiCall.descStreams ch.GroupName ch.StreamName,
        ApiCall.createStream ch.GroupName ch.StreamName] := by
  unfold getHookStreams
  cases fail (ApiCall.descStreams ch.GroupName ch.StreamName) with
  | some e => exact Or.inl rfl
  | none =>
    cases st.describeLogStreams ch.GroupName ch.StreamName with
    | cons s rest => exact Or.inl rfl
    | nil =>
      cases fail (ApiCall.createStream ch.GroupName ch.StreamName) with
      | some e => exact Or.inr rfl
      | none => exact Or.inr rfl

theorem getHook_group_present (fail : ApiCall → Option Err)
    (ch : CloudwatchHook) (tok0 : Option String) (st : AwsState)
    (h1 : fail (ApiCall.descGroups ch.GroupName 1) = none)
    (hne : st.describeLogGroups ch.GroupName 1 ≠ []) :
    CloudwatchHook.GetHook fail ch tok0 st =
      getHookStreams fail ch tok0 st [ApiCall.descGroups ch.GroupName 1] := by
  have hlen : ¬ (st.describeLogGroups ch.GroupName 1).length < 1 := by
    simpa [Nat.lt_one_iff, List.length_eq_zero] using hne
  simp [CloudwatchHook.GetHook, h1, hlen]

theorem getHook_group_created (fail : ApiCall → Option Err)
    (ch : CloudwatchHook) (tok0 : Option String) (st : AwsState)
    (h1 : fail (ApiCall.descGroups ch.GroupName 1) = none)
    (he : st.describeLogGroups ch.GroupName 1 = [])
    (h2 : fail (ApiCall.createGroup ch.GroupName) = none) :
    CloudwatchHook.GetHook fail ch tok0 st =
      getHookStreams fail ch tok0 (st.createLogGroup ch.GroupName)
        [ApiCall.descGroups ch.GroupName 1,
          ApiCall.createGroup ch.GroupName] := by
  simp [CloudwatchHook.GetHook, h1, he, h2]

theorem getHook_stream_found (fail : ApiCall → Option Err)
    (ch : CloudwatchHook) (tok0 : Option String) (st : AwsState)
    (s : LogStreamDesc) (rest : List LogStreamDesc)
    (h1 : fail (ApiCall.descGroups ch.GroupName 1) = none)
    (hne : st.describeLogGroups ch.GroupName 1 ≠ [])
    (h3 : fail (ApiCall.descStreams ch.GroupName ch.StreamName) = none)
    (hs : st.describeLogStreams ch.GroupName ch.StreamName = s :: rest) :
    CloudwatchHook.GetHook fail ch tok0 st =
      ⟨InitResult.ok s.uploadSequenceToken, st,
        [ApiCall.descGroups ch.GroupName 1,
          ApiCall.descStreams ch.GroupName ch.StreamName]⟩ := by
  rw [getHook_group_present fail ch tok0 st h1 hne]
  simp [getHookStreams, h3, hs]

theorem getHook_calls_nodup (fail : ApiCall → Option Err)
    (ch : CloudwatchHook) (tok0 : Option String) (st : AwsState) :
    (CloudwatchHook.GetHook fail ch tok0 st).calls.Nodup := by
  unfold CloudwatchHook.GetHook
  cases fail (ApiCall.descGroups ch.GroupName 1) with
  | some e => simp
  | none =>
    by_cases hlen : (st.describeLogGroups ch.GroupName 1).length < 1
    · simp only [if_pos hlen]
      cases fail (ApiCall.createGroup ch.GroupName) with
      | some e => simp
      | none =>
        rcases getHookStreams_calls_shape fail ch tok0
            (st.createLogGroup ch.GroupName)
            [ApiCall.descGroups ch.GroupName 1,
              ApiCall.createGroup ch.GroupName] with hc | hc <;>
          rw [hc] <;> simp
    · simp only [if_neg hlen]
      rcases getHookStreams_calls_shape fail ch tok0 st
          [ApiCall.descGroups ch.GroupName 1] with hc | hc <;>
        rw [hc] <;> simp

/-- C5: `GetHook` initialization.  (1) A failed group lookup returns that
error with no callback.  (2) When the group lookup finds a group, no
`CreateLogGroup` call is issued and the service's groups are unchanged.
(3) When the group is absent and its creation fails, that error is
returned with no callback.  (4) When the group is absent and creation
succeeds, exactly that group is appended.  (5) When the stream lookup
finds a stream, its current `UploadSequenceToken` is recorded, nothing is
created and the service state is unchanged.  (6) Under the same
conditions, initialization is idempotent: a second run from the resulting
state returns the same result.  (7) A failed stream lookup returns that
error with no callback.  (8) When the stream is absent, a failed creation
returns that error; a successful creation leaves the recorded token as it
was (nil for a fresh hook) and appends exactly that stream.  (9) No API
call is ever issued twice (no internal retry). -/
theorem getHook_init (fail : ApiCall → Option Err) (ch : CloudwatchHook)
    (tok0 : Option String) (st : AwsState) :
    (∀ er, fail (ApiCall.descGroups ch.GroupName 1) = some er →
      CloudwatchHook.GetHook fail ch tok0 st =
        ⟨InitResult.err er, st, [ApiCall.descGroups ch.GroupName 1]⟩) ∧
    (fail (ApiCall.descGroups ch.GroupName 1) = none →
      st.describeLogGroups ch.GroupName 1 ≠ [] →
      ApiCall.createGroup ch.GroupName ∉
        (CloudwatchHook.GetHook fail ch tok0 st).calls ∧
      (CloudwatchHook.GetHook fail ch tok0 st).state.groups = st.groups) ∧
    (fail (ApiCall.descGroups ch.GroupName 1) = none →
      st.describeLogGroups ch.GroupName 1 = [] →
      ∀ er, fail (ApiCall.createGroup ch.GroupName) = some er →
      CloudwatchHook.GetHook fail ch tok0 st =
        ⟨InitResult.err er, st,
          [ApiCall.descGroups ch.GroupName 1,
            ApiCall.createGroup ch.GroupName]⟩) ∧
    (fail (ApiCall.descGroups ch.GroupName 1) = none →
      st.describeLogGroups ch.GroupName 1 = [] →
      fail (ApiCall.createGroup ch.GroupName) = none →
      ApiCall.createGroup ch.GroupName ∈
        (CloudwatchHook.GetHook fail ch tok0 st).calls ∧
      (CloudwatchHook.GetHook fail ch tok0 st).state.groups =
        st.groups ++ [ch.GroupName]) ∧
    (fail (ApiCall.descGroups ch.GroupName 1) = none →
      st.describeLogGroups ch.GroupName 1 ≠ [] →
      fail (ApiCall.descStreams ch.GroupName ch.StreamName) = none →
      ∀ (s : LogStreamDesc) (rest : List LogStreamDesc),
        st.describeLogStreams ch.GroupName ch.StreamName = s :: rest →
        CloudwatchHook.GetHook fail ch tok0 st =
          ⟨InitResult.ok s.uploadSequenceToken, st,
            [ApiCall.descGroups ch.GroupName 1,
              ApiCall.descStreams ch.GroupName ch.StreamName]⟩) ∧
    (fail (ApiCall.descGroups ch.GroupName 1) = none →
      st.describeLogGroups ch.GroupName 1 ≠ [] →
      fail (ApiCall.descStreams ch.GroupName ch.StreamName) = none →
      ∀ (s : LogStreamDesc) (rest : List LogStreamDesc),
        st.describeLogStreams ch.GroupName ch.StreamName = s :: rest →
        CloudwatchHook.GetHook fail ch tok0
            (CloudwatchHook.GetHook fail ch tok0 st).state =
          CloudwatchHook.GetHook fail ch tok0 st) ∧
    (fail (ApiCall.descGroups ch.GroupName 1) = none →
      st.describeLogGroups ch.GroupName 1 ≠ [] →
      ∀ er, fail (ApiCall.descStreams ch.GroupName ch.StreamName) = some er →
      CloudwatchHook.GetHook fail ch tok0 st =
        ⟨InitResult.err er, st,
          [ApiCall.descGroups ch.GroupName 1,
            ApiCall.descStreams ch.GroupName ch.StreamName]⟩) ∧
    (fail (ApiCall.descGroups ch.GroupName 1) = none →
      st.describeLogGroups ch.GroupName 1 ≠ [] →
      fail (ApiCall.descStreams ch.GroupName ch.StreamName) = none →
      st.describeLogStreams ch.GroupName ch.StreamName = [] →
      (∀ er, fail (ApiCall.createStream ch.GroupName ch.StreamName) = some er →
        CloudwatchHook.GetHook fail ch tok0 st =
          ⟨InitResult.err er, st,
            [ApiCall.descGroups ch.GroupName 1,
              ApiCall.descStreams ch.GroupName ch.StreamName,
              ApiCall.createStream ch.GroupName ch.StreamName]⟩) ∧
      (fail (ApiCall.createStream ch.GroupName ch.StreamName) = none →
        CloudwatchHook.GetHook fail ch tok0 st =
          ⟨InitResult.ok tok0,
            st.createLogStream ch.GroupName ch.StreamName,
            [ApiCall.descGroups ch.GroupName 1,
              ApiCall.descStreams ch.GroupName ch.StreamName,
              ApiCall.createStream ch.GroupName ch.StreamName]⟩)) ∧
    (CloudwatchHook.GetHook fail ch tok0 st).calls.Nodup := by
  refine ⟨fun er h1 => by simp [CloudwatchHook.GetHook, h1],
    fun h1 hne => ?_,
    fun h1 he er h2 => by simp [CloudwatchHook.GetHook, h1, he, h2],
    fun h1 he h2 => ?_,
    fun h1 hne h3 s rest hs =>
      getHook_stream_found fail ch tok0 st s rest h1 hne h3 hs,
    fun h1 hne h3 s rest hs => ?_,
    fun h1 hne er h3 => ?_,
    fun h1 hne h3 hs => ?_,
    getHook_calls_nodup fail ch tok0 st⟩
  · rw [getHook_group_present fail ch tok0 st h1 hne]
    refine ⟨?_, getHookStreams_state_groups fail ch tok0 st _⟩
    rcases getHookStreams_calls_shape fail ch tok0 st
        [ApiCall.descGroups ch.GroupName 1] with hc | hc <;>
      rw [hc] <;> simp
  · rw [getHook_group_created fail ch tok0 st h1 he h2]
    refine ⟨?_, ?_⟩
    · rcases getHookStreams_calls_shape fail ch tok0
          (st.createLogGroup ch.GroupName)
          [ApiCall.descGroups ch.GroupName 1,
            ApiCall.createGroup ch.GroupName] with hc | hc <;>
        rw [hc] <;> simp
    · simpa [AwsState.createLogGroup] using
        getHookStreams_state_groups fail ch tok0
          (st.createLogGroup ch.GroupName)
          [ApiCall.descGroups ch.GroupName 1,
            ApiCall.createGroup ch.GroupName]
  · have h5 := getHook_stream_found fail ch tok0 st s rest h1 hne h3 hs
    rw [h5]
    exact h5
  · rw [getHook_group_present fail ch tok0 st h1 hne]
    simp [getHookStreams, h3]
  · rw [getHook_group_present fail ch tok0 st h1 hne]
    exact ⟨fun er h4 => by simp [getHookStreams, h3, hs, h4],
      fun h4 => by simp [getHookStreams, h3, hs, h4]⟩

theorem getHook_init_witness :
    CloudwatchHook.GetHook failNoneW chW none stPreW =
      ⟨InitResult.ok (some "tok7"), stPreW,
        [ApiCall.descGroups "g" 1, ApiCall.descStreams "g" "s"]⟩ := by
  have h := getHook_init failNoneW chW none stPreW
  exact h.2.2.2.2.1 rfl (by decide) rfl ⟨"g", "s", some "tok7"⟩ [] (by decide)

end Zapcloudwatch
